import Mathlib

/-!
Verification of the HTLC escrow ledger (`contracts/HTLCEtherlinkEscrow.sol`)
and the cross-chain swap coordinator (`RelayerService`) of the
etherlinked repository.

The Solidity contract is embedded shallowly: addresses and `bytes32`
values are modelled as `Nat`, `uint256` arithmetic uses `Nat` (Solidity
0.8 checked subtraction is modelled explicitly with `checkedSub`, which
returns `none` exactly where the EVM would revert with an arithmetic
panic), storage mappings are total functions with the zero-initialised
default, and a reverting call is an `Except.error` that discards every
write (each operation returns errors before performing any state
update, mirroring the all-or-nothing revert semantics).  The two
keccak256 call sites (`keccak256(abi.encodePacked(secret))` in
`withdraw`, and the escrow-id derivation in `_generateEscrowId`) are
abstracted by a `HashModel` parameter; the escrow-id hash is applied to
an explicit `EscrowIdInput` record holding, in source order, every
field the contract packs into the hash — including `block.timestamp`
and `block.difficulty`.  Value transfers (native call / SafeERC20) and
event emission are outside the ledger state and are modelled as
succeeding.
-/

namespace HTLC

/-- Constant `MIN_TIMELOCK` of the contract (seconds). -/
def MIN_TIMELOCK : Nat := 300

/-- Constant `MAX_TIMELOCK` of the contract (seconds). -/
def MAX_TIMELOCK : Nat := 86400

/-- The `FusionEscrow` struct of the contract.  Addresses and `bytes32`
are `Nat`; `orderId` is the Solidity `string`. -/
structure FusionEscrow where
  sender : Nat
  receiver : Nat
  resolver : Nat
  amount : Nat
  secretHash : Nat
  timelock : Nat
  withdrawn : Bool
  cancelled : Bool
  tokenAddress : Nat
  orderId : String
  createdAt : Nat
  auctionStartTime : Nat
  auctionEndTime : Nat
  startRate : Nat
  endRate : Nat
  isResolverEscrow : Bool
deriving DecidableEq, Repr

/-- The zero-initialised mapping default: `escrows[id]` for an id that
was never written. -/
def zeroEscrow : FusionEscrow :=
  ⟨0, 0, 0, 0, 0, 0, false, false, 0, "", 0, 0, 0, 0, 0, false⟩

/-- Custom errors of the contract (the revert reasons). -/
inductive ContractError where
  | EscrowAlreadyExists
  | EscrowNotFound
  | AlreadyWithdrawn
  | AlreadyCancelled
  | InvalidSecret
  | TimelockNotExpired
  | TimelockTooShort
  | TimelockTooLong
  | UnauthorizedResolver
  | UnauthorizedAccess
  | InvalidAmount
  | InvalidAddress
  | OrderIdAlreadyUsed
  | InvalidAuctionParameters
  | AuctionNotActive
deriving DecidableEq, Repr

/-- Contract storage.  Mappings are total functions with the
zero-initialised default; `orderToEscrowId` keeps the contract's own
sentinel convention (`bytes32(0)`, i.e. `0`, means unused).  `owner` is
the `Ownable` owner set by the constructor. -/
structure ContractState where
  escrows : Nat → FusionEscrow
  orderToEscrowId : String → Nat
  authorizedResolvers : Nat → Bool
  crossChainPairs : Nat → Nat
  dutchAuctionRates : String → Nat
  owner : Nat

/-- State right after the constructor ran with `initialOwner`. -/
def initialState (initialOwner : Nat) : ContractState :=
  ⟨fun _ => zeroEscrow, fun _ => 0, fun _ => false, fun _ => 0, fun _ => 0,
   initialOwner⟩

/-- The argument record packed by `_generateEscrowId` via
`abi.encodePacked`, in source order.  The last two fields are the
block-local entropy (`block.timestamp`, `block.difficulty`) the
contract mixes into the id. -/
structure EscrowIdInput where
  sender : Nat
  receiver : Nat
  tokenAddress : Nat
  amount : Nat
  secretHash : Nat
  timelock : Nat
  orderId : String
  blockTimestamp : Nat
  blockDifficulty : Nat
deriving DecidableEq, Repr

/-- The seven semantic fields of an escrow-id derivation, i.e. the
inputs the specification says the id must be a pure function of:
`{sender, receiver, asset, amount, secretHash, timelock, orderId}`. -/
def semanticFields (i : EscrowIdInput) : Nat × Nat × Nat × Nat × Nat × Nat × String :=
  (i.sender, i.receiver, i.tokenAddress, i.amount, i.secretHash, i.timelock, i.orderId)

/-- Abstraction of the contract's two keccak256 call sites.
`keccakSecret` models `keccak256(abi.encodePacked(secret))`;
`keccakId` models the keccak hash applied in `_generateEscrowId`. -/
structure HashModel where
  keccakSecret : String → Nat
  keccakId : EscrowIdInput → Nat

/-- Internal helper `_generateEscrowId`: builds the packed argument
record (including `block.timestamp` and `block.difficulty`, exactly as
the source does). -/
def generateEscrowIdInput (sender receiver : Nat) (secretHash timelock : Nat)
    (orderId : String) (amount tokenAddress : Nat)
    (blockTimestamp blockDifficulty : Nat) : EscrowIdInput :=
  ⟨sender, receiver, tokenAddress, amount, secretHash, timelock, orderId,
   blockTimestamp, blockDifficulty⟩

/-- Internal helper `_generateEscrowId`: the escrow id is the hash of
the packed record. -/
def generateEscrowId (H : HashModel) (sender receiver : Nat)
    (secretHash timelock : Nat) (orderId : String) (amount tokenAddress : Nat)
    (blockTimestamp blockDifficulty : Nat) : Nat :=
  H.keccakId (generateEscrowIdInput sender receiver secretHash timelock orderId
    amount tokenAddress blockTimestamp blockDifficulty)

/-- Solidity 0.8 checked subtraction: `none` is the arithmetic-panic
revert. -/
def checkedSub (a b : Nat) : Option Nat :=
  if a < b then none else some (a - b)

/-- Internal helper `_validateEscrowParameters`; `some e` is the revert
`e`, `none` means the checks passed. -/
def validateEscrowParameters (amount timelockSeconds : Nat)
    (receiver resolver : Nat) (orderId : String) : Option ContractError :=
  if amount = 0 then some .InvalidAmount
  else if timelockSeconds < MIN_TIMELOCK then some .TimelockTooShort
  else if timelockSeconds > MAX_TIMELOCK then some .TimelockTooLong
  else if receiver = 0 then some .InvalidAddress
  else if resolver = 0 then some .InvalidAddress
  else if orderId.length = 0 then some .InvalidAmount
  else none

/-- Internal helper `_validateAuctionParameters`. -/
def validateAuctionParameters (auctionDuration startRate endRate : Nat) :
    Option ContractError :=
  if auctionDuration = 0 then some .InvalidAuctionParameters
  else if startRate = 0 ∨ endRate = 0 then some .InvalidAuctionParameters
  else if startRate < endRate then some .InvalidAuctionParameters
  else none

/-- Internal helper `_calculateCurrentRate` evaluated at block time
`blockTimestamp`.  The two `uint256` subtractions that can underflow
(`block.timestamp - auctionStartTime` and
`auctionEndTime - auctionStartTime`) use `checkedSub`, so `none` is
exactly the arithmetic-panic revert of Solidity 0.8.  The final
subtraction `startRate - rateDecrease` cannot underflow once
`rateRange = startRate - endRate` succeeded, because
`rateDecrease ≤ rateRange ≤ startRate`. -/
def calculateCurrentRate (escrow : FusionEscrow) (blockTimestamp : Nat) :
    Option Nat :=
  if escrow.auctionStartTime = 0 then some 0
  else
    match checkedSub blockTimestamp escrow.auctionStartTime with
    | none => none
    | some elapsed =>
      match checkedSub escrow.auctionEndTime escrow.auctionStartTime with
      | none => none
      | some duration =>
        if elapsed ≥ duration then some escrow.endRate
        else
          match checkedSub escrow.startRate escrow.endRate with
          | none => none
          | some rateRange =>
            some (escrow.startRate - rateRange * elapsed / duration)

/-- Function `createFusionEscrowNative`.  `msgValue` is `msg.value`,
`caller` is `msg.sender`; the pair returned on success is the new state
and the created escrow id. -/
def createFusionEscrowNative (H : HashModel)
    (blockTimestamp blockDifficulty : Nat) (caller msgValue : Nat)
    (secretHash timelockSeconds : Nat) (receiver resolver : Nat)
    (orderId : String) (auctionDuration startRate endRate : Nat)
    (s : ContractState) : Except ContractError (ContractState × Nat) :=
  match validateEscrowParameters msgValue timelockSeconds receiver resolver orderId with
  | some e => .error e
  | none =>
    match validateAuctionParameters auctionDuration startRate endRate with
    | some e => .error e
    | none =>
      let timelock := blockTimestamp + timelockSeconds
      let escrowId := generateEscrowId H caller receiver secretHash timelock
        orderId msgValue 0 blockTimestamp blockDifficulty
      if (s.escrows escrowId).amount ≠ 0 then .error .EscrowAlreadyExists
      else if s.orderToEscrowId orderId ≠ 0 then .error .OrderIdAlreadyUsed
      else
        let auctionStart := blockTimestamp
        let auctionEnd := auctionStart + auctionDuration
        let esc : FusionEscrow :=
          ⟨caller, receiver, resolver, msgValue, secretHash, timelock,
           false, false, 0, orderId, blockTimestamp, auctionStart, auctionEnd,
           startRate, endRate, false⟩
        .ok ({ s with
          escrows := fun i => if i = escrowId then esc else s.escrows i,
          orderToEscrowId := fun o => if o = orderId then escrowId else s.orderToEscrowId o,
          dutchAuctionRates := fun o => if o = orderId then startRate else s.dutchAuctionRates o },
          escrowId)

/-- Function `createFusionEscrowERC20`.  The `safeTransferFrom` of the
locked tokens is modelled as succeeding (token balances are outside the
ledger state). -/
def createFusionEscrowERC20 (H : HashModel)
    (blockTimestamp blockDifficulty : Nat) (caller : Nat)
    (tokenAddress amount : Nat) (secretHash timelockSeconds : Nat)
    (receiver resolver : Nat) (orderId : String)
    (auctionDuration startRate endRate : Nat)
    (s : ContractState) : Except ContractError (ContractState × Nat) :=
  if tokenAddress = 0 then .error .InvalidAddress
  else
    match validateEscrowParameters amount timelockSeconds receiver resolver orderId with
    | some e => .error e
    | none =>
      match validateAuctionParameters auctionDuration startRate endRate with
      | some e => .error e
      | none =>
        let timelock := blockTimestamp + timelockSeconds
        let escrowId := generateEscrowId H caller receiver secretHash timelock
          orderId amount tokenAddress blockTimestamp blockDifficulty
        if (s.escrows escrowId).amount ≠ 0 then .error .EscrowAlreadyExists
        else if s.orderToEscrowId orderId ≠ 0 then .error .OrderIdAlreadyUsed
        else
          let auctionStart := blockTimestamp
          let auctionEnd := auctionStart + auctionDuration
          let esc : FusionEscrow :=
            ⟨caller, receiver, resolver, amount, secretHash, timelock,
             false, false, tokenAddress, orderId, blockTimestamp, auctionStart,
             auctionEnd, startRate, endRate, false⟩
          .ok ({ s with
            escrows := fun i => if i = escrowId then esc else s.escrows i,
            orderToEscrowId := fun o => if o = orderId then escrowId else s.orderToEscrowId o,
            dutchAuctionRates := fun o => if o = orderId then startRate else s.dutchAuctionRates o },
            escrowId)

/-- Function `createResolverEscrow`.  Note, exactly as in the source:
after the `onlyAuthorizedResolver` and parameter checks it writes
`escrows[escrowId]` unconditionally — there is no `EscrowAlreadyExists`
or `OrderIdAlreadyUsed` check and `orderToEscrowId` is not updated.
The two sequential writes to `crossChainPairs` (first at
`sourceEscrowId`, then at `escrowId`) are reproduced, the later write
winning on a key clash. -/
def createResolverEscrow (H : HashModel)
    (blockTimestamp blockDifficulty : Nat) (caller msgValue : Nat)
    (secretHash timelockSeconds : Nat) (receiver : Nat) (orderId : String)
    (sourceEscrowId : Nat) (s : ContractState) :
    Except ContractError (ContractState × Nat) :=
  if ¬ s.authorizedResolvers caller then .error .UnauthorizedResolver
  else
    match validateEscrowParameters msgValue timelockSeconds receiver caller orderId with
    | some e => .error e
    | none =>
      let timelock := blockTimestamp + timelockSeconds
      let escrowId := generateEscrowId H caller receiver secretHash timelock
        orderId msgValue 0 blockTimestamp blockDifficulty
      let esc : FusionEscrow :=
        ⟨caller, receiver, caller, msgValue, secretHash, timelock,
         false, false, 0, orderId, blockTimestamp, 0, 0, 0, 0, true⟩
      .ok ({ s with
        escrows := fun i => if i = escrowId then esc else s.escrows i,
        crossChainPairs := fun i =>
          if i = escrowId then sourceEscrowId
          else if i = sourceEscrowId then escrowId
          else s.crossChainPairs i },
        escrowId)

/-- Function `withdraw`.  The `escrowExists` modifier is the leading
`amount = 0` check.  The value transfer to the receiver is modelled as
succeeding; the `executionRate` computed for the event does not affect
storage and is not returned. -/
def withdraw (H : HashModel) (caller : Nat) (escrowId : Nat) (secret : String)
    (s : ContractState) : Except ContractError ContractState :=
  if (s.escrows escrowId).amount = 0 then .error .EscrowNotFound
  else
    let escrow := s.escrows escrowId
    if escrow.withdrawn then .error .AlreadyWithdrawn
    else if escrow.cancelled then .error .AlreadyCancelled
    else if caller ≠ escrow.receiver then .error .UnauthorizedAccess
    else if H.keccakSecret secret ≠ escrow.secretHash then .error .InvalidSecret
    else
      .ok { s with
        escrows := fun i =>
          if i = escrowId then { escrow with withdrawn := true } else s.escrows i }

/-- Function `cancel`.  The refund transfer to the sender is modelled
as succeeding. -/
def cancel (blockTimestamp : Nat) (caller : Nat) (escrowId : Nat)
    (s : ContractState) : Except ContractError ContractState :=
  if (s.escrows escrowId).amount = 0 then .error .EscrowNotFound
  else
    let escrow := s.escrows escrowId
    if escrow.withdrawn then .error .AlreadyWithdrawn
    else if escrow.cancelled then .error .AlreadyCancelled
    else if caller ≠ escrow.sender then .error .UnauthorizedAccess
    else if blockTimestamp < escrow.timelock then .error .TimelockNotExpired
    else
      .ok { s with
        escrows := fun i =>
          if i = escrowId then { escrow with cancelled := true } else s.escrows i }

/-- Function `setResolverAuthorization` (the `onlyOwner` admin
mutation). -/
def setResolverAuthorization (caller resolver : Nat) (authorized : Bool)
    (s : ContractState) : Except ContractError ContractState :=
  if caller ≠ s.owner then .error .UnauthorizedAccess
  else
    .ok { s with
      authorizedResolvers := fun a =>
        if a = resolver then authorized else s.authorizedResolvers a }

/-- One ledger transaction, for reasoning about interleavings of the
contract's mutating operations. -/
inductive Op where
  | lockNative (blockTimestamp blockDifficulty caller msgValue : Nat)
      (secretHash timelockSeconds receiver resolver : Nat) (orderId : String)
      (auctionDuration startRate endRate : Nat)
  | lockERC20 (blockTimestamp blockDifficulty caller : Nat)
      (tokenAddress amount secretHash timelockSeconds receiver resolver : Nat)
      (orderId : String) (auctionDuration startRate endRate : Nat)
  | lockAsResolver (blockTimestamp blockDifficulty caller msgValue : Nat)
      (secretHash timelockSeconds receiver : Nat) (orderId : String)
      (sourceEscrowId : Nat)
  | doWithdraw (caller escrowId : Nat) (secret : String)
  | doCancel (blockTimestamp caller escrowId : Nat)
  | setAuth (caller resolver : Nat) (authorized : Bool)

/-- Apply one transaction: a revert leaves the state unchanged
(all-or-nothing). -/
def step (H : HashModel) (s : ContractState) (op : Op) : ContractState :=
  match op with
  | .lockNative bt bd c v sh tls r res oid ad sr er =>
    match createFusionEscrowNative H bt bd c v sh tls r res oid ad sr er s with
    | .ok (s', _) => s'
    | .error _ => s
  | .lockERC20 bt bd c tok a sh tls r res oid ad sr er =>
    match createFusionEscrowERC20 H bt bd c tok a sh tls r res oid ad sr er s with
    | .ok (s', _) => s'
    | .error _ => s
  | .lockAsResolver bt bd c v sh tls r oid src =>
    match createResolverEscrow H bt bd c v sh tls r oid src s with
    | .ok (s', _) => s'
    | .error _ => s
  | .doWithdraw c eid sec =>
    match withdraw H c eid sec s with
    | .ok s' => s'
    | .error _ => s
  | .doCancel bt c eid =>
    match cancel bt c eid s with
    | .ok s' => s'
    | .error _ => s
  | .setAuth c r b =>
    match setResolverAuthorization c r b s with
    | .ok s' => s'
    | .error _ => s

/-- Run a transaction sequence from a state. -/
def run (H : HashModel) (s : ContractState) (ops : List Op) : ContractState :=
  ops.foldl (step H) s

end HTLC

/-!
Shallow embedding of the cross-chain swap coordinator
(`RelayerService`, `src/unnamed/part_003`) together with the type
definitions it imports (`types/fusion`, in `EtherlinkService.ts`'s
companion type file).  JavaScript `Map`s become association lists with
`Map` semantics (`set` on an existing key replaces the value in place,
otherwise appends; iteration is in insertion order), timestamps
(`Date.now()`) are `Nat` parameters, and the transactions a handler
submits through a network service (`withdrawEscrow` / `cancelEscrow`)
are returned explicitly as a `ChainCall` list, modelled as succeeding.
Logging and event emission to external listeners do not change
coordinator state and are not modelled, except for the auction-update
notifications which `auctionUpdateTick` returns so the loop's only
observable effect is kept.
-/

namespace Relayer

/-- Enum `CrossChainSwapStatus`. -/
inductive SwapStatus where
  | INITIATED
  | SOURCE_LOCKED
  | DEST_LOCKED
  | SECRET_REVEALED
  | COMPLETED
  | FAILED
  | RECOVERING
deriving DecidableEq, Repr, BEq

/-- Enum `FusionOrderStatus`. -/
inductive OrderStatus where
  | PENDING
  | AUCTION_ACTIVE
  | ACCEPTED
  | EXECUTING
  | COMPLETED
  | CANCELLED
  | EXPIRED
  | FAILED
deriving DecidableEq, Repr, BEq

/-- Interface `CrossChainSwap`. -/
structure CrossChainSwap where
  orderId : String
  sourceChain : String
  destChain : String
  sourceEscrowId : String
  destEscrowId : String
  secret : Option String
  status : SwapStatus
  createdAt : Nat
  updatedAt : Nat
  executionDeadline : Nat
deriving DecidableEq, Repr

/-- Interface `FusionOrder`, restricted to the one field the
coordinator ever reads or writes (`status`); the remaining fields of
the TypeScript interface (maker, amounts, rates, signature, ...) are
opaque payload to `RelayerService` and are omitted. -/
structure FusionOrder where
  status : OrderStatus
deriving DecidableEq, Repr

/-- Interface `RelayerError` (one record of the bounded error log). -/
structure RelayerError where
  timestamp : Nat
  level : String
  message : String
  orderId : Option String
  network : Option String
deriving DecidableEq, Repr

/-- Enum `EscrowEventType`. -/
inductive EscrowEventType where
  | ESCROW_CREATED
  | ESCROW_WITHDRAWN
  | ESCROW_CANCELLED
  | SECRET_REVEALED
  | AUCTION_RATE_UPDATED
deriving DecidableEq, Repr

/-- Interface `EscrowEvent`.  The untyped `data` payload is modelled by
the two fields the handlers read: `data.secret` and `data.timelock`. -/
structure EscrowEvent where
  eventType : EscrowEventType
  escrowId : String
  orderId : String
  blockNumber : Nat
  timestamp : Nat
  dataSecret : String
  dataTimelock : Nat
deriving DecidableEq, Repr

/-- A ledger transaction submitted through a network service:
`withdrawEscrow(escrowId, secret)` or `cancelEscrow(escrowId)` on the
service of `network`. -/
inductive ChainCall where
  | withdrawCall (network escrowId secret : String)
  | cancelCall (network escrowId : String)
deriving DecidableEq, Repr

/-- JavaScript `Map.get`. -/
def mapGet {α : Type} (m : List (String × α)) (k : String) : Option α :=
  (m.find? (fun p => p.1 == k)).map (fun p => p.2)

/-- JavaScript `Map.set`: replace in place when the key is present,
append otherwise. -/
def mapSet {α : Type} (m : List (String × α)) (k : String) (v : α) :
    List (String × α) :=
  if (m.find? (fun p => p.1 == k)).isSome then
    m.map (fun p => if p.1 == k then (k, v) else p)
  else m ++ [(k, v)]

/-- The mutable fields of `RelayerService`: the two order/swap maps,
the keys of `networkServices`, the bounded error log and the running
flag. -/
structure RelayerModel where
  pendingSwaps : List (String × CrossChainSwap)
  activeOrders : List (String × FusionOrder)
  networkServices : List String
  errors : List RelayerError
  isRunning : Bool
deriving DecidableEq, Repr

/-- Method `addError`: push the record, then keep only the last 1000
entries (`slice(-1000)`). -/
def addError (errors : List RelayerError) (e : RelayerError) :
    List RelayerError :=
  let errors1 := errors ++ [e]
  if errors1.length > 1000 then errors1.drop (errors1.length - 1000)
  else errors1

/-- The `errors` field of the `getState()` snapshot:
`this.errors.slice(-100)`. -/
def getStateErrors (errors : List RelayerError) : List RelayerError :=
  errors.drop (errors.length - 100)

/-- Method `handleEscrowCreated`: mark the order `ACCEPTED` when known,
then create the swap record in `DEST_LOCKED` (with empty
source-chain/source-escrow fields and
`executionDeadline = data.timelock * 1000`) or update an existing one.
`now` is `Date.now()`. -/
def handleEscrowCreated (now : Nat) (ev : EscrowEvent) (st : RelayerModel) :
    RelayerModel :=
  let st1 :=
    match mapGet st.activeOrders ev.orderId with
    | some o =>
      { st with activeOrders :=
          mapSet st.activeOrders ev.orderId { o with status := .ACCEPTED } }
    | none => st
  let swap :=
    match mapGet st1.pendingSwaps ev.orderId with
    | none =>
      { orderId := ev.orderId, sourceChain := "", destChain := "",
        sourceEscrowId := "", destEscrowId := ev.escrowId, secret := none,
        status := SwapStatus.DEST_LOCKED, createdAt := now, updatedAt := now,
        executionDeadline := ev.dataTimelock * 1000 }
    | some sw =>
      { sw with
        destEscrowId := ev.escrowId, status := SwapStatus.DEST_LOCKED,
        updatedAt := now }
  { st1 with pendingSwaps := mapSet st1.pendingSwaps ev.orderId swap }

/-- Method `completeSwap`: mark swap and order `COMPLETED` (when
present). -/
def completeSwap (now : Nat) (orderId : String) (st : RelayerModel) :
    RelayerModel :=
  let st1 :=
    match mapGet st.pendingSwaps orderId with
    | some sw =>
      { st with
        pendingSwaps := mapSet st.pendingSwaps orderId
          { sw with status := SwapStatus.COMPLETED, updatedAt := now } }
    | none => st
  match mapGet st1.activeOrders orderId with
  | some o =>
    { st1 with
      activeOrders := mapSet st1.activeOrders orderId { o with status := .COMPLETED } }
  | none => st1

/-- Method `executeCounterWithdrawal`: look the swap up again, submit
`withdrawEscrow(sourceEscrowId, secret)` on the source-chain service
when that service exists and `sourceEscrowId` is truthy (non-empty),
then `completeSwap`.  The `none` branch throws in the source and is
unreachable from `handleEscrowWithdrawn`, which has just stored the
swap. -/
def executeCounterWithdrawal (now : Nat) (orderId secret : String)
    (st : RelayerModel) : RelayerModel × List ChainCall :=
  match mapGet st.pendingSwaps orderId with
  | none => (st, [])
  | some sw =>
    let calls :=
      if st.networkServices.contains sw.sourceChain && sw.sourceEscrowId != ""
      then [ChainCall.withdrawCall sw.sourceChain sw.sourceEscrowId secret]
      else []
    (completeSwap now orderId st, calls)

/-- Method `handleEscrowWithdrawn`: record the revealed secret and set
`SECRET_REVEALED`; when the event's escrow id equals the swap's
`destEscrowId` the source calls `completeSwap` directly, otherwise it
calls `executeCounterWithdrawal`; afterwards the order (when known) is
set to `EXECUTING`. -/
def handleEscrowWithdrawn (now : Nat) (ev : EscrowEvent) (st : RelayerModel) :
    RelayerModel × List ChainCall :=
  let secret := ev.dataSecret
  let res :=
    match mapGet st.pendingSwaps ev.orderId with
    | none => (st, [])
    | some sw =>
      let sw1 :=
        { sw with
          secret := some secret, status := SwapStatus.SECRET_REVEALED,
          updatedAt := now }
      let st1 := { st with pendingSwaps := mapSet st.pendingSwaps ev.orderId sw1 }
      if sw1.destEscrowId == ev.escrowId then
        (completeSwap now ev.orderId st1, [])
      else
        executeCounterWithdrawal now ev.orderId secret st1
  match mapGet res.1.activeOrders ev.orderId with
  | some o =>
    ({ res.1 with
       activeOrders := mapSet res.1.activeOrders ev.orderId { o with status := .EXECUTING } },
     res.2)
  | none => res

/-- Method `handleEscrowCancelled`: mark the swap `FAILED` and the
order `CANCELLED` (when present). -/
def handleEscrowCancelled (now : Nat) (ev : EscrowEvent) (st : RelayerModel) :
    RelayerModel :=
  let st1 :=
    match mapGet st.pendingSwaps ev.orderId with
    | some sw =>
      { st with
        pendingSwaps := mapSet st.pendingSwaps ev.orderId
          { sw with status := SwapStatus.FAILED, updatedAt := now } }
    | none => st
  match mapGet st1.activeOrders ev.orderId with
  | some o =>
    { st1 with
      activeOrders := mapSet st1.activeOrders ev.orderId { o with status := .CANCELLED } }
  | none => st1

/-- Body of the `startHealthChecks` interval for one network: a failed
(or throwing) `isHealthy()` probe appends a record through `addError`
and nothing else.  `healthy` gives each probe's outcome. -/
def healthCheckStep (now : Nat) (healthy : String → Bool)
    (acc : RelayerModel) (network : String) : RelayerModel :=
  if healthy network then acc
  else
    { acc with
      errors := addError acc.errors
        ⟨now, "warning", "Health check failed for " ++ network, none,
         some network⟩ }

/-- One firing of the `startHealthChecks` interval (every 30 s): probe
every network service in insertion order.  The loop body submits no
ledger transaction, hence the empty `ChainCall` list. -/
def healthCheckTick (now : Nat) (healthy : String → Bool)
    (st : RelayerModel) : RelayerModel × List ChainCall :=
  (st.networkServices.foldl (healthCheckStep now healthy) st, [])

/-- One firing of the `startAuctionUpdates` interval (every 1 s): for
every order in `AUCTION_ACTIVE` it calls `updateAuctionRate`, whose
whole body is `this.emit('auctionUpdate', ...)`; the returned string
list is the order ids of those notifications.  No coordinator state
changes and no ledger transaction is submitted. -/
def auctionUpdateTick (st : RelayerModel) :
    RelayerModel × List ChainCall × List String :=
  (st, [],
   (st.activeOrders.filter (fun p => p.2.status == OrderStatus.AUCTION_ACTIVE)).map
     (fun p => p.1))

end Relayer

/-!
Concrete instances used by closed evaluations (counterexamples and
witnesses).  `modelHash` is a concrete `HashModel`; every
counterexample built with it relies only on properties a collision-free
keccak also has on the inputs involved: equal packed inputs give equal
ids, and the finitely many distinct packed inputs appearing in a trace
are mapped to distinct, nonzero ids.
-/

namespace HTLC

/-- A concrete hash instance for closed evaluations: the secret hash is
the secret's length, the escrow id is `100 + blockTimestamp`. -/
def modelHash : HashModel :=
  ⟨fun s => s.length, fun inp => 100 + inp.blockTimestamp⟩

/-- A live escrow used in witness states: sender 4, receiver 2,
resolver 3, amount 10, secret hash 3 (the length of "abc"), timelock
1300, auction window [1000, 1300] with rates 50 → 40. -/
def wEscrow : FusionEscrow :=
  ⟨4, 2, 3, 10, 3, 1300, false, false, 0, "X", 1000, 1000, 1300, 50, 40, false⟩

/-- A contract state holding `wEscrow` at escrow id 5, order "X" bound
to it. -/
def wState : ContractState :=
  ⟨fun i => if i = 5 then wEscrow else zeroEscrow,
   fun o => if o = "X" then 5 else 0,
   fun _ => false, fun _ => 0, fun _ => 50, 1⟩

/-- A contract state holding `wEscrow` at escrow id 1100 — the id
`modelHash` derives for a lock at block timestamp 1000 — with the
order-id mapping free. -/
def dupIdState : ContractState :=
  ⟨fun i => if i = 1100 then wEscrow else zeroEscrow,
   fun _ => 0, fun _ => false, fun _ => 0, fun _ => 50, 1⟩

/-- A contract state with no escrows but order "X" already bound to
escrow id 7. -/
def dupOrderState : ContractState :=
  ⟨fun _ => zeroEscrow,
   fun o => if o = "X" then 7 else 0,
   fun _ => false, fun _ => 0, fun _ => 50, 1⟩

/-- Same-block transaction sequence: the owner (address 1) authorizes
resolver 3; the resolver locks a counter-leg escrow for order "X" at
block timestamp 1000 (escrow id 1100 under `modelHash`); the receiver
(address 2) withdraws it with secret "abc". -/
def reopenTrace : List Op :=
  [Op.setAuth 1 3 true,
   Op.lockAsResolver 1000 0 3 10 3 300 2 "X" 55,
   Op.doWithdraw 2 1100 "abc"]

/-- The same `createResolverEscrow` call repeated later in the same
block: identical arguments and block environment, hence the identical
packed hash input and the identical escrow id 1100. -/
def reopenOp : Op := Op.lockAsResolver 1000 0 3 10 3 300 2 "X" 55

/-- Transaction sequence creating two resolver escrows for the same
order id "X" in different blocks (timestamps 1000 and 2000, escrow ids
1100 and 2100 under `modelHash`). -/
def twoResolverTrace : List Op :=
  [Op.setAuth 1 3 true,
   Op.lockAsResolver 1000 0 3 10 3 300 2 "X" 55,
   Op.lockAsResolver 2000 0 3 10 3 300 2 "X" 55]

/-- An auction escrow with the spec's worked example: rates
1 000 000 → 980 000 over the window [1000, 1300]. -/
def specExampleEscrow : FusionEscrow :=
  ⟨4, 2, 3, 10, 3, 1900, false, false, 0, "X", 1000, 1000, 1300,
   1000000, 980000, false⟩

end HTLC

namespace Relayer

/-- A freshly started coordinator monitoring two chains, with no
orders, swaps or errors yet. -/
def initModel : RelayerModel :=
  ⟨[], [], ["etherlinkTestnet", "ethereum"], [], true⟩

/-- A destination-leg `EscrowCreated` event for order "X", escrow "E2",
with `data.timelock = 2000`. -/
def createdEventX : EscrowEvent :=
  ⟨.ESCROW_CREATED, "E2", "X", 10, 900, "", 2000⟩

/-- The subsequent `EscrowWithdrawn` event on the same escrow "E2"
revealing secret "abc". -/
def withdrawnEventX : EscrowEvent :=
  ⟨.ESCROW_WITHDRAWN, "E2", "X", 11, 950, "abc", 0⟩

/-- Coordinator state after processing `createdEventX` at time 1000:
one pending swap in `DEST_LOCKED` whose `destEscrowId` is "E2". -/
def destLockedState : RelayerModel :=
  handleEscrowCreated 1000 createdEventX initModel

/-- A swap whose `executionDeadline` (2 000 000 ms) is long past at
observation time 9 000 000 while the swap is still `DEST_LOCKED`. -/
def overdueSwap : CrossChainSwap :=
  ⟨"X", "", "", "", "E2", none, SwapStatus.DEST_LOCKED, 1000, 1000, 2000000⟩

/-- Coordinator state holding only `overdueSwap`. -/
def overdueState : RelayerModel :=
  ⟨[("X", overdueSwap)], [], ["etherlinkTestnet", "ethereum"], [], true⟩

/-- A concrete error-log record. -/
def errRecord : RelayerError :=
  ⟨1, "error", "boom", none, none⟩

end Relayer

/-!
Theorems.  Each claim of the specification audit is settled by exactly
one theorem named `C<n>_...`; the remaining theorems are shared helper
lemmas.
-/

namespace HTLC

/-- C4: the escrow id is not a pure function of the seven semantic
fields `{sender, receiver, asset, amount, secretHash, timelock,
orderId}`.  `_generateEscrowId` also packs `block.timestamp` and
`block.difficulty` into the hashed bytes, so two lock invocations with
identical semantic fields in blocks with timestamps 1000 and 2000 hash
different inputs — and therefore obtain different escrow ids for any
hash without a collision on this pair, as the concrete instance
`modelHash` illustrates. -/
theorem C4_escrowId_depends_on_block_entropy :
    semanticFields (generateEscrowIdInput 1 2 3 1300 "X" 10 0 1000 5) =
      semanticFields (generateEscrowIdInput 1 2 3 1300 "X" 10 0 2000 5) ∧
    generateEscrowIdInput 1 2 3 1300 "X" 10 0 1000 5 ≠
      generateEscrowIdInput 1 2 3 1300 "X" 10 0 2000 5 ∧
    generateEscrowId modelHash 1 2 3 1300 "X" 10 0 1000 5 ≠
      generateEscrowId modelHash 1 2 3 1300 "X" 10 0 2000 5 := by
  refine ⟨rfl, by decide, by decide⟩

/-- C3 counterexample: a terminal escrow is not permanent.  In
`reopenTrace` the resolver locks escrow 1100 and the receiver
withdraws it (`withdrawn = true`); repeating the identical
`createResolverEscrow` call in the same block (`reopenOp`) regenerates
the same escrow id — the hash input, `block.timestamp` included, is
identical — and overwrites the escrow, resetting `withdrawn` to
`false` on a live (`amount ≠ 0`) escrow. -/
theorem C3_terminal_state_reopened :
    ((run modelHash (initialState 1) reopenTrace).escrows 1100).withdrawn = true ∧
    ((run modelHash (initialState 1) (reopenTrace ++ [reopenOp])).escrows 1100).withdrawn
      = false ∧
    ((run modelHash (initialState 1) (reopenTrace ++ [reopenOp])).escrows 1100).amount
      = 10 := by
  decide

/-- C9 counterexample: `createResolverEscrow` neither checks nor
records order-id usage, so in `twoResolverTrace` the second resolver
lock with the already-used order id "X" succeeds, and afterwards two
distinct live escrows (ids 1100 and 2100) both carry order id "X" on
one chain. -/
theorem C9_resolver_orderId_reuse :
    ((run modelHash (initialState 1) twoResolverTrace).escrows 1100).amount = 10 ∧
    ((run modelHash (initialState 1) twoResolverTrace).escrows 1100).orderId = "X" ∧
    ((run modelHash (initialState 1) twoResolverTrace).escrows 2100).amount = 10 ∧
    ((run modelHash (initialState 1) twoResolverTrace).escrows 2100).orderId = "X" := by
  decide

/-- C7 counterexample: at a time strictly before `auctionStartTime`
the rate computation does not return `startRate` — the checked
subtraction `block.timestamp - auctionStartTime` underflows, i.e. the
call reverts (`none`). -/
theorem C7_rate_reverts_before_start :
    calculateCurrentRate specExampleEscrow 50 = none ∧
    specExampleEscrow.startRate = 1000000 ∧
    50 ≤ specExampleEscrow.auctionStartTime ∧
    specExampleEscrow.endRate ≤ specExampleEscrow.startRate := by
  decide

end HTLC

namespace Relayer

/-- C5: at the failing input, the coordinator's handling of a
destination-leg `Withdrawn` event (`withdrawnEventX`, whose escrow id
"E2" equals the pending swap's `destEscrowId`) issues no ledger call at
all — in particular no `submitWithdraw` on the source leg — and
nevertheless marks the swap `COMPLETED` immediately. -/
theorem C5_dest_withdrawal_completes_without_counter_call :
    (handleEscrowWithdrawn 3000 withdrawnEventX destLockedState).2 = [] ∧
    (mapGet (handleEscrowWithdrawn 3000 withdrawnEventX destLockedState).1.pendingSwaps
      "X").map (fun sw => sw.status) = some SwapStatus.COMPLETED ∧
    (mapGet destLockedState.pendingSwaps "X").map (fun sw => sw.destEscrowId) =
      some withdrawnEventX.escrowId := by
  decide

/-- Helper: one health probe only ever appends to the error log. -/
theorem healthCheckStep_pendingSwaps (now : Nat) (healthy : String → Bool)
    (acc : RelayerModel) (network : String) :
    (healthCheckStep now healthy acc network).pendingSwaps = acc.pendingSwaps := by
  unfold healthCheckStep
  split <;> rfl

/-- Helper: the health-check fold leaves the swap map untouched. -/
theorem healthFold_pendingSwaps (now : Nat) (healthy : String → Bool)
    (l : List String) :
    ∀ acc : RelayerModel,
      (l.foldl (healthCheckStep now healthy) acc).pendingSwaps = acc.pendingSwaps := by
  induction l with
  | nil => intro acc; rfl
  | cons n t ih =>
    intro acc
    rw [List.foldl_cons, ih, healthCheckStep_pendingSwaps]

/-- C6: the coordinator's only background loops are the health-check
interval and the auction-update interval, and neither one reads
`executionDeadline`, moves any `CrossChainSwap` (to `RECOVERING` or
anywhere else) or submits any ledger transaction — in particular no
`submitCancel` is ever issued, for every state, time and probe
outcome. -/
theorem C6_background_loops_do_not_recover (now : Nat)
    (healthy : String → Bool) (st : RelayerModel) :
    (healthCheckTick now healthy st).1.pendingSwaps = st.pendingSwaps ∧
    (healthCheckTick now healthy st).2 = [] ∧
    (auctionUpdateTick st).1 = st ∧
    (auctionUpdateTick st).2.1 = [] :=
  ⟨healthFold_pendingSwaps now healthy st.networkServices st, rfl, rfl, rfl⟩

/-- C10 counterexample: after a single recorded error the `getState()`
error field equals the entire retained log, so a caller of the public
state API does see the full retained log when it holds at most 100
records. -/
theorem C10_small_log_fully_visible :
    getStateErrors (addError [] errRecord) = addError [] errRecord ∧
    addError [] errRecord ≠ [] := by
  decide

end Relayer

namespace HTLC

/-- C1: `withdraw` succeeds exactly when the escrow exists
(`amount ≠ 0`, the `escrowExists` modifier), is non-terminal, the
caller is the recorded receiver and the provided secret hashes to
`secretHash`; on success the only change is setting `withdrawn` on
that escrow; otherwise it reverts — returning the matching error and,
by the all-or-nothing revert semantics of the embedding, leaving the
state unchanged — with the source's check order deciding which error
is reported. -/
theorem C1_withdraw_characterization (H : HashModel) (caller escrowId : Nat)
    (secret : String) (s : ContractState) :
    ((∃ s', withdraw H caller escrowId secret s = .ok s') ↔
      ((s.escrows escrowId).amount ≠ 0 ∧
       (s.escrows escrowId).withdrawn = false ∧
       (s.escrows escrowId).cancelled = false ∧
       caller = (s.escrows escrowId).receiver ∧
       H.keccakSecret secret = (s.escrows escrowId).secretHash)) ∧
    (∀ s', withdraw H caller escrowId secret s = .ok s' →
      s' = { s with
             escrows := fun i =>
               if i = escrowId then { s.escrows escrowId with withdrawn := true }
               else s.escrows i }) ∧
    ((s.escrows escrowId).amount = 0 →
      withdraw H caller escrowId secret s = .error .EscrowNotFound) ∧
    ((s.escrows escrowId).amount ≠ 0 → (s.escrows escrowId).withdrawn = true →
      withdraw H caller escrowId secret s = .error .AlreadyWithdrawn) ∧
    ((s.escrows escrowId).amount ≠ 0 → (s.escrows escrowId).withdrawn = false →
      (s.escrows escrowId).cancelled = true →
      withdraw H caller escrowId secret s = .error .AlreadyCancelled) ∧
    ((s.escrows escrowId).amount ≠ 0 → (s.escrows escrowId).withdrawn = false →
      (s.escrows escrowId).cancelled = false →
      caller ≠ (s.escrows escrowId).receiver →
      withdraw H caller escrowId secret s = .error .UnauthorizedAccess) ∧
    ((s.escrows escrowId).amount ≠ 0 → (s.escrows escrowId).withdrawn = false →
      (s.escrows escrowId).cancelled = false →
      caller = (s.escrows escrowId).receiver →
      H.keccakSecret secret ≠ (s.escrows escrowId).secretHash →
      withdraw H caller escrowId secret s = .error .InvalidSecret) := by
  unfold withdraw
  refine ⟨⟨?_, ?_⟩, ?_, ?_, ?_, ?_, ?_, ?_⟩
  · rintro ⟨s', hs'⟩
    by_cases h1 : (s.escrows escrowId).amount = 0 <;>
    by_cases h2 : (s.escrows escrowId).withdrawn = true <;>
    by_cases h3 : (s.escrows escrowId).cancelled = true <;>
    by_cases h4 : caller = (s.escrows escrowId).receiver <;>
    by_cases h5 : H.keccakSecret secret = (s.escrows escrowId).secretHash <;>
    simp_all
  · rintro ⟨h1, h2, h3, h4, h5⟩
    refine ⟨{ s with
              escrows := fun i =>
                if i = escrowId then { s.escrows escrowId with withdrawn := true }
                else s.escrows i }, ?_⟩
    simp [h1, h2, h3, h4, h5]
  · intro s' hs'
    by_cases h1 : (s.escrows escrowId).amount = 0 <;>
    by_cases h2 : (s.escrows escrowId).withdrawn = true <;>
    by_cases h3 : (s.escrows escrowId).cancelled = true <;>
    by_cases h4 : caller = (s.escrows escrowId).receiver <;>
    by_cases h5 : H.keccakSecret secret = (s.escrows escrowId).secretHash <;>
    simp_all
  · intro h1; simp [h1]
  · intro h1 h2; simp [h1, h2]
  · intro h1 h2 h3; simp [h1, h2, h3]
  · intro h1 h2 h3 h4; simp [h1, h2, h3, h4]
  · intro h1 h2 h3 h4 h5; simp [h1, h2, h3, h4, h5]

end HTLC

namespace HTLC

/-- C2: `cancel` succeeds exactly when the escrow exists, is
non-terminal, the caller is the original sender and the block time has
reached the timelock; on success the only change is setting
`cancelled` on that escrow (the refund transfer is modelled as
succeeding); otherwise it reverts with the matching error — state
unchanged by the revert semantics — in the source's check order. -/
theorem C2_cancel_characterization (blockTimestamp caller escrowId : Nat)
    (s : ContractState) :
    ((∃ s', cancel blockTimestamp caller escrowId s = .ok s') ↔
      ((s.escrows escrowId).amount ≠ 0 ∧
       (s.escrows escrowId).withdrawn = false ∧
       (s.escrows escrowId).cancelled = false ∧
       caller = (s.escrows escrowId).sender ∧
       (s.escrows escrowId).timelock ≤ blockTimestamp)) ∧
    (∀ s', cancel blockTimestamp caller escrowId s = .ok s' →
      s' = { s with
             escrows := fun i =>
               if i = escrowId then { s.escrows escrowId with cancelled := true }
               else s.escrows i }) ∧
    ((s.escrows escrowId).amount = 0 →
      cancel blockTimestamp caller escrowId s = .error .EscrowNotFound) ∧
    ((s.escrows escrowId).amount ≠ 0 → (s.escrows escrowId).withdrawn = true →
      cancel blockTimestamp caller escrowId s = .error .AlreadyWithdrawn) ∧
    ((s.escrows escrowId).amount ≠ 0 → (s.escrows escrowId).withdrawn = false →
      (s.escrows escrowId).cancelled = true →
      cancel blockTimestamp caller escrowId s = .error .AlreadyCancelled) ∧
    ((s.escrows escrowId).amount ≠ 0 → (s.escrows escrowId).withdrawn = false →
      (s.escrows escrowId).cancelled = false →
      caller ≠ (s.escrows escrowId).sender →
      cancel blockTimestamp caller escrowId s = .error .UnauthorizedAccess) ∧
    ((s.escrows escrowId).amount ≠ 0 → (s.escrows escrowId).withdrawn = false →
      (s.escrows escrowId).cancelled = false →
      caller = (s.escrows escrowId).sender →
      blockTimestamp < (s.escrows escrowId).timelock →
      cancel blockTimestamp caller escrowId s = .error .TimelockNotExpired) := by
  unfold cancel
  refine ⟨⟨?_, ?_⟩, ?_, ?_, ?_, ?_, ?_, ?_⟩
  · rintro ⟨s', hs'⟩
    by_cases h1 : (s.escrows escrowId).amount = 0 <;>
    by_cases h2 : (s.escrows escrowId).withdrawn = true <;>
    by_cases h3 : (s.escrows escrowId).cancelled = true <;>
    by_cases h4 : caller = (s.escrows escrowId).sender <;>
    by_cases h5 : blockTimestamp < (s.escrows escrowId).timelock <;>
    simp_all
  · rintro ⟨h1, h2, h3, h4, h5⟩
    refine ⟨{ s with
              escrows := fun i =>
                if i = escrowId then { s.escrows escrowId with cancelled := true }
                else s.escrows i }, ?_⟩
    simp [h1, h2, h3, h4, Nat.not_lt.mpr h5]
  · intro s' hs'
    by_cases h1 : (s.escrows escrowId).amount = 0 <;>
    by_cases h2 : (s.escrows escrowId).withdrawn = true <;>
    by_cases h3 : (s.escrows escrowId).cancelled = true <;>
    by_cases h4 : caller = (s.escrows escrowId).sender <;>
    by_cases h5 : blockTimestamp < (s.escrows escrowId).timelock <;>
    simp_all
  · intro h1; simp [h1]
  · intro h1 h2; simp [h1, h2]
  · intro h1 h2 h3; simp [h1, h2, h3]
  · intro h1 h2 h3 h4; simp [h1, h2, h3, h4]
  · intro h1 h2 h3 h4 h5; simp [h1, h2, h3, h4, h5]

end HTLC

namespace HTLC

/-- Helper: closed form of `_calculateCurrentRate` at or after the
auction start, for a genuine auction escrow. -/
theorem rate_formula (esc : FusionEscrow) (t : Nat)
    (h0 : 0 < esc.auctionStartTime)
    (hlt : esc.auctionStartTime < esc.auctionEndTime)
    (hr : esc.endRate ≤ esc.startRate)
    (ht : esc.auctionStartTime ≤ t) :
    calculateCurrentRate esc t =
      if esc.auctionEndTime ≤ t then some esc.endRate
      else some (esc.startRate -
        (esc.startRate - esc.endRate) * (t - esc.auctionStartTime) /
          (esc.auctionEndTime - esc.auctionStartTime)) := by
  have h1 : ¬ esc.auctionStartTime = 0 := by omega
  have h2 : ¬ (t < esc.auctionStartTime) := by omega
  have h3 : ¬ (esc.auctionEndTime < esc.auctionStartTime) := by omega
  have h4 : ¬ (esc.startRate < esc.endRate) := by omega
  simp only [calculateCurrentRate, checkedSub, h1, h2, h3, h4, if_false,
    ite_false, ge_iff_le]
  by_cases h5 : esc.auctionEndTime ≤ t
  · rw [if_pos (by omega), if_pos h5]
  · rw [if_neg (by omega), if_neg h5]

/-- Helper: the in-window rate decrease never exceeds the full rate
range. -/
theorem rate_decrease_le_range (range elapsed duration : Nat)
    (h : elapsed ≤ duration) (hd : 0 < duration) :
    range * elapsed / duration ≤ range := by
  calc range * elapsed / duration
      ≤ range * duration / duration :=
        Nat.div_le_div_right (Nat.mul_le_mul_left range h)
    _ = range := Nat.mul_div_cancel range hd

end HTLC

namespace HTLC

/-- C7 (amended): for an auction escrow (positive `auctionStartTime`,
`auctionStartTime < auctionEndTime`, `startRate ≥ endRate`) the rate
function returns exactly `startRate` at `t = auctionStartTime`,
exactly `endRate` at every `t ≥ auctionEndTime`, is monotonically
non-increasing over `t ≥ auctionStartTime` — and, the amendment, at
every `t < auctionStartTime` it does not return `startRate`: the
checked subtraction `block.timestamp - auctionStartTime` underflows
and the call reverts (`none`). -/
theorem C7_rate_clamps_and_monotone (esc : FusionEscrow)
    (h0 : 0 < esc.auctionStartTime)
    (hlt : esc.auctionStartTime < esc.auctionEndTime)
    (hr : esc.endRate ≤ esc.startRate) :
    calculateCurrentRate esc esc.auctionStartTime = some esc.startRate ∧
    (∀ t, esc.auctionEndTime ≤ t → calculateCurrentRate esc t = some esc.endRate) ∧
    (∀ t1 t2 r1 r2, esc.auctionStartTime ≤ t1 → t1 ≤ t2 →
      calculateCurrentRate esc t1 = some r1 →
      calculateCurrentRate esc t2 = some r2 → r2 ≤ r1) ∧
    (∀ t, t < esc.auctionStartTime → calculateCurrentRate esc t = none) := by
  refine ⟨?_, ?_, ?_, ?_⟩
  · rw [rate_formula esc _ h0 hlt hr le_rfl, if_neg (by omega)]
    simp [Nat.sub_self]
  · intro t ht
    rw [rate_formula esc t h0 hlt hr (by omega), if_pos ht]
  · intro t1 t2 r1 r2 ht1 ht12 hr1 hr2
    rw [rate_formula esc t1 h0 hlt hr ht1] at hr1
    rw [rate_formula esc t2 h0 hlt hr (by omega)] at hr2
    by_cases he1 : esc.auctionEndTime ≤ t1
    · rw [if_pos he1] at hr1
      rw [if_pos (by omega)] at hr2
      injection hr1 with hr1
      injection hr2 with hr2
      omega
    · rw [if_neg he1] at hr1
      by_cases he2 : esc.auctionEndTime ≤ t2
      · rw [if_pos he2] at hr2
        injection hr1 with hr1
        injection hr2 with hr2
        have hx : (esc.startRate - esc.endRate) * (t1 - esc.auctionStartTime) /
            (esc.auctionEndTime - esc.auctionStartTime) ≤
            esc.startRate - esc.endRate :=
          rate_decrease_le_range _ _ _ (by omega) (by omega)
        omega
      · rw [if_neg he2] at hr2
        injection hr1 with hr1
        injection hr2 with hr2
        have hx : (esc.startRate - esc.endRate) * (t1 - esc.auctionStartTime) /
            (esc.auctionEndTime - esc.auctionStartTime) ≤
            (esc.startRate - esc.endRate) * (t2 - esc.auctionStartTime) /
            (esc.auctionEndTime - esc.auctionStartTime) :=
          Nat.div_le_div_right
            (Nat.mul_le_mul_left _ (by omega))
        omega
  · intro t ht
    have h1 : ¬ esc.auctionStartTime = 0 := by omega
    simp only [calculateCurrentRate, checkedSub, h1, ite_false, if_pos ht]

/-- C7 witness: the spec's example escrow (window [1000, 1300], rates
1 000 000 → 980 000) evaluated through the theorem: exactly
`startRate` at the start instant and exactly `endRate` at the end. -/
theorem C7_rate_clamps_witness :
    calculateCurrentRate specExampleEscrow 1000 = some 1000000 ∧
    calculateCurrentRate specExampleEscrow 1300 = some 980000 ∧
    calculateCurrentRate specExampleEscrow 9999 = some 980000 := by
  have h := C7_rate_clamps_and_monotone specExampleEscrow
    (by decide) (by decide) (by decide)
  exact ⟨h.1, h.2.1 1300 (by decide), h.2.1 9999 (by decide)⟩

/-- C8: in the open auction window the rate is exactly the integer
linear interpolation
`startRate - (startRate - endRate) * (now - startTime) / (endTime - startTime)`,
computed in `uint256` arithmetic with floor division. -/
theorem C8_rate_linear_interpolation (esc : FusionEscrow) (t : Nat)
    (h0 : 0 < esc.auctionStartTime)
    (h1 : esc.auctionStartTime < t)
    (h2 : t < esc.auctionEndTime)
    (hr : esc.endRate ≤ esc.startRate) :
    calculateCurrentRate esc t =
      some (esc.startRate -
        (esc.startRate - esc.endRate) * (t - esc.auctionStartTime) /
          (esc.auctionEndTime - esc.auctionStartTime)) := by
  rw [rate_formula esc t h0 (by omega) hr (by omega), if_neg (by omega)]

/-- C8 witness: the spec's worked example — `startRate = 1_000_000`,
`endRate = 980_000`, a 300-second window, 150 seconds elapsed — gives
exactly 990 000. -/
theorem C8_rate_example_witness :
    calculateCurrentRate specExampleEscrow 1150 = some 990000 := by
  rw [C8_rate_linear_interpolation specExampleEscrow 1150
    (by decide) (by decide) (by decide) (by decide)]
  rfl

end HTLC

namespace HTLC

/-- C9 (amended): the two Fusion lock operations do enforce the
duplicate checks — with valid parameters, `createFusionEscrowNative`
and `createFusionEscrowERC20` revert with `EscrowAlreadyExists` when
the derived escrow id is already occupied and with `OrderIdAlreadyUsed`
when the order id is already bound, leaving the state unchanged by the
revert semantics — whereas `createResolverEscrow` performs no such
check (its counterexample). -/
theorem C9_lock_duplicate_checks (H : HashModel)
    (bt bd caller v tok sh tls recv res : Nat) (oid : String)
    (ad sr er : Nat) (s : ContractState)
    (hval : validateEscrowParameters v tls recv res oid = none)
    (hauc : validateAuctionParameters ad sr er = none)
    (htok : tok ≠ 0) :
    ((s.escrows (generateEscrowId H caller recv sh (bt + tls) oid v 0 bt bd)).amount ≠ 0 →
      createFusionEscrowNative H bt bd caller v sh tls recv res oid ad sr er s =
        .error .EscrowAlreadyExists) ∧
    ((s.escrows (generateEscrowId H caller recv sh (bt + tls) oid v 0 bt bd)).amount = 0 →
      s.orderToEscrowId oid ≠ 0 →
      createFusionEscrowNative H bt bd caller v sh tls recv res oid ad sr er s =
        .error .OrderIdAlreadyUsed) ∧
    ((s.escrows (generateEscrowId H caller recv sh (bt + tls) oid v tok bt bd)).amount ≠ 0 →
      createFusionEscrowERC20 H bt bd caller tok v sh tls recv res oid ad sr er s =
        .error .EscrowAlreadyExists) ∧
    ((s.escrows (generateEscrowId H caller recv sh (bt + tls) oid v tok bt bd)).amount = 0 →
      s.orderToEscrowId oid ≠ 0 →
      createFusionEscrowERC20 H bt bd caller tok v sh tls recv res oid ad sr er s =
        .error .OrderIdAlreadyUsed) := by
  refine ⟨?_, ?_, ?_, ?_⟩
  · intro hdup
    simp [createFusionEscrowNative, hval, hauc, hdup]
  · intro hfree hdup
    simp [createFusionEscrowNative, hval, hauc, hfree, hdup]
  · intro hdup
    simp [createFusionEscrowERC20, htok, hval, hauc, hdup]
  · intro hfree hdup
    simp [createFusionEscrowERC20, htok, hval, hauc, hfree, hdup]

/-- C9 witness: with valid parameters, a native lock deriving the
occupied escrow id 1100 reverts with `EscrowAlreadyExists`
(`dupIdState`), and one whose order id "X" is already bound reverts
with `OrderIdAlreadyUsed` (`dupOrderState`). -/
theorem C9_lock_duplicate_witness :
    createFusionEscrowNative modelHash 1000 0 4 10 3 300 2 3 "X" 300 50 40 dupIdState =
      .error .EscrowAlreadyExists ∧
    createFusionEscrowNative modelHash 1000 0 4 10 3 300 2 3 "X" 300 50 40 dupOrderState =
      .error .OrderIdAlreadyUsed := by
  refine ⟨(C9_lock_duplicate_checks modelHash 1000 0 4 10 1 3 300 2 3 "X" 300 50 40
      dupIdState (by decide) (by decide) (by decide)).1 (by decide),
    (C9_lock_duplicate_checks modelHash 1000 0 4 10 1 3 300 2 3 "X" 300 50 40
      dupOrderState (by decide) (by decide) (by decide)).2.1 (by decide) (by decide)⟩

end HTLC

namespace Relayer

/-- Helper: `addError` on a log of at most 1000 entries keeps exactly
the last (at most) 1000 entries of the appended log. -/
theorem addError_eq_drop (l : List RelayerError) (e : RelayerError)
    (h : l.length ≤ 1000) :
    addError l e = (l ++ [e]).drop ((l ++ [e]).length - 1000) := by
  unfold addError
  by_cases h1 : (l ++ [e]).length > 1000
  · rw [if_pos h1]
  · rw [if_neg h1]
    have h2 : (l ++ [e]).length - 1000 = 0 := by simp at h1 ⊢; omega
    rw [h2, List.drop_zero]

/-- Helper: keeping the last `n` entries commutes with appending one
element. -/
theorem lastN_append_one {α : Type} (l : List α) (e : α) (n : Nat) (hn : 0 < n) :
    (l.drop (l.length - n) ++ [e]).drop ((l.drop (l.length - n) ++ [e]).length - n) =
      (l ++ [e]).drop ((l ++ [e]).length - n) := by
  rw [List.drop_append_of_le_length (by simp; omega),
    List.drop_drop,
    List.drop_append_of_le_length (by simp; omega)]
  congr 2
  simp
  omega

/-- Helper: pushing the whole error history through `addError` retains
exactly the most recent (at most) 1000 records, in insertion order. -/
theorem foldl_addError_eq_drop (es : List RelayerError) :
    es.foldl addError [] = es.drop (es.length - 1000) := by
  induction es using List.reverseRecOn with
  | nil => rfl
  | append_singleton xs e ih =>
    rw [List.foldl_append, List.foldl_cons, List.foldl_nil, ih,
      addError_eq_drop _ _ (by rw [List.length_drop]; omega)]
    exact lastN_append_one xs e 1000 (by omega)

/-- Helper: the `getState()` error field is the most recent (at most)
100 of the whole history. -/
theorem getStateErrors_foldl (es : List RelayerError) :
    getStateErrors (es.foldl addError []) = es.drop (es.length - 100) := by
  rw [foldl_addError_eq_drop]
  unfold getStateErrors
  rw [List.drop_drop]
  have hidx : es.length - 1000 + ((es.drop (es.length - 1000)).length - 100) =
      es.length - 100 := by
    rw [List.length_drop]; omega
  rw [hidx]

/-- C10 (amended): for every recorded error history, the internal log
is exactly the most recent at-most-1000 records (so its length never
exceeds 1000), the `getState()` snapshot exposes exactly the most
recent at-most-100 records in insertion order (so at most 100), and
whenever the retained log holds more than 100 records the snapshot is
a strict truncation of it — for histories of at most 100 records,
however, the snapshot is the full retained log (the counterexample to
the claim's final clause). -/
theorem C10_state_errors_last_hundred (es : List RelayerError) :
    es.foldl addError [] = es.drop (es.length - 1000) ∧
    (es.foldl addError []).length ≤ 1000 ∧
    getStateErrors (es.foldl addError []) = es.drop (es.length - 100) ∧
    (getStateErrors (es.foldl addError [])).length ≤ 100 ∧
    (100 < (es.foldl addError []).length →
      getStateErrors (es.foldl addError []) ≠ es.foldl addError []) := by
  refine ⟨foldl_addError_eq_drop es, ?_, getStateErrors_foldl es, ?_, ?_⟩
  · rw [foldl_addError_eq_drop, List.length_drop]
    omega
  · rw [getStateErrors_foldl, List.length_drop]
    omega
  · intro h heq
    have hlen := congrArg List.length heq
    simp [getStateErrors, List.length_drop] at hlen
    omega

end Relayer

namespace HTLC

/-- Helper: one ledger transaction either leaves an escrow slot
untouched or leaves it with `withdrawn` and `cancelled` not both set:
the three lock operations install fresh escrows with both flags clear
(`createResolverEscrow` possibly overwriting an occupied slot),
`withdraw` sets `withdrawn` only after checking `cancelled` is clear,
and `cancel` sets `cancelled` only after checking `withdrawn` is
clear. -/
theorem step_escrows_flags (H : HashModel) (s : ContractState) (op : Op) (i : Nat) :
    (step H s op).escrows i = s.escrows i ∨
      (((step H s op).escrows i).withdrawn &&
        ((step H s op).escrows i).cancelled) = false := by
  cases op with
  | lockNative bt bd c v sh tls r res oid ad sr er =>
    simp only [step]
    split
    · next s' eid heq =>
      simp only [createFusionEscrowNative] at heq
      repeat' split at heq
      all_goals try exact Except.noConfusion heq
      simp only [Except.ok.injEq, Prod.mk.injEq] at heq
      obtain ⟨rfl, rfl⟩ := heq
      by_cases hi : i = generateEscrowId H c r sh (bt + tls) oid v 0 bt bd
      · right; simp [hi]
      · left; simp [hi]
    · exact Or.inl rfl
  | lockERC20 bt bd c tok v sh tls r res oid ad sr er =>
    simp only [step]
    split
    · next s' eid heq =>
      simp only [createFusionEscrowERC20] at heq
      repeat' split at heq
      all_goals try exact Except.noConfusion heq
      simp only [Except.ok.injEq, Prod.mk.injEq] at heq
      obtain ⟨rfl, rfl⟩ := heq
      by_cases hi : i = generateEscrowId H c r sh (bt + tls) oid v tok bt bd
      · right; simp [hi]
      · left; simp [hi]
    · exact Or.inl rfl
  | lockAsResolver bt bd c v sh tls r oid src =>
    simp only [step]
    split
    · next s' eid heq =>
      simp only [createResolverEscrow] at heq
      repeat' split at heq
      all_goals try exact Except.noConfusion heq
      simp only [Except.ok.injEq, Prod.mk.injEq] at heq
      obtain ⟨rfl, rfl⟩ := heq
      by_cases hi : i = generateEscrowId H c r sh (bt + tls) oid v 0 bt bd
      · right; simp [hi]
      · left; simp [hi]
    · exact Or.inl rfl
  | doWithdraw c eid sec =>
    simp only [step]
    split
    · next s' heq =>
      simp only [withdraw] at heq
      by_cases h1 : (s.escrows eid).amount = 0 <;>
      by_cases h2 : (s.escrows eid).withdrawn = true <;>
      by_cases h3 : (s.escrows eid).cancelled = true <;>
      by_cases h4 : c = (s.escrows eid).receiver <;>
      by_cases h5 : H.keccakSecret sec = (s.escrows eid).secretHash <;>
        simp [h1, h2, h3, h4, h5] at heq
      obtain rfl := heq.symm
      by_cases hi : i = eid
      · right; simp_all [hi]
      · left; simp [hi]
    · exact Or.inl rfl
  | doCancel bt c eid =>
    simp only [step]
    split
    · next s' heq =>
      simp only [cancel] at heq
      by_cases h1 : (s.escrows eid).amount = 0 <;>
      by_cases h2 : (s.escrows eid).withdrawn = true <;>
      by_cases h3 : (s.escrows eid).cancelled = true <;>
      by_cases h4 : c = (s.escrows eid).sender <;>
      by_cases h5 : bt < (s.escrows eid).timelock <;>
        simp [h1, h2, h3, h4, h5] at heq
      obtain rfl := heq.symm
      by_cases hi : i = eid
      · right; simp_all [hi]
      · left; simp [hi]
    · exact Or.inl rfl
  | setAuth c r b =>
    simp only [step]
    split
    · next s' heq =>
      simp only [setResolverAuthorization] at heq
      split at heq
      · cases heq
      · simp only [Except.ok.injEq] at heq
        obtain rfl := heq.symm
        exact Or.inl rfl
    · exact Or.inl rfl

end HTLC

namespace HTLC

/-- Helper: the flag-exclusion invariant is preserved along any
transaction sequence. -/
theorem run_flags (H : HashModel) (ops : List Op) :
    ∀ s : ContractState,
      (∀ i, ((s.escrows i).withdrawn && (s.escrows i).cancelled) = false) →
      ∀ i, (((run H s ops).escrows i).withdrawn &&
        ((run H s ops).escrows i).cancelled) = false := by
  induction ops with
  | nil => exact fun s hs => hs
  | cons op t ih =>
    intro s hs
    have hstep : ∀ i, (((step H s op).escrows i).withdrawn &&
        ((step H s op).escrows i).cancelled) = false := by
      intro i
      rcases step_escrows_flags H s op i with h | h
      · rw [h]; exact hs i
      · exact h
    exact ih (step H s op) hstep

/-- C3 (amended): in every ledger state reachable from a fresh
deployment by any interleaving of the contract's operations (both lock
flavours, resolver lock, withdraw, cancel, resolver authorization),
`withdrawn` and `cancelled` are never both set on any escrow — the
surviving half of the claim.  The one-way/terminal half is false:
`createResolverEscrow` has no existence check and can overwrite a
terminal escrow, clearing its flags again (see the counterexample
trace). -/
theorem C3_flags_mutually_exclusive (H : HashModel) (initialOwner : Nat)
    (ops : List Op) (i : Nat) :
    (((run H (initialState initialOwner) ops).escrows i).withdrawn &&
      ((run H (initialState initialOwner) ops).escrows i).cancelled) = false :=
  run_flags H ops (initialState initialOwner) (fun _ => rfl) i

end HTLC
